import Mathlib

/-!
Shallow embedding of the speculative devirtualization pass
(src/compiler/optimizing/extensions/passes/devirtualization.cc, class
HDevirtualization) and proofs about its operations.

Modelling conventions:
* IR instructions are identified by natural-number ids (the C++ code keys its
  maps on HInstruction pointers; pointer identity becomes id identity).
* The two prediction maps (SafeMap, i.e. std::map with unique keys) become
  association lists keyed by instruction id with first-match lookup; SafeMap::Put
  is only ever called on an absent key, so prepending models it.
* External collaborators (dex-cache method resolution, class-hierarchy lookups,
  FindClassIndexIn / FindMethodIndexIn, reference-type info of receivers) are an
  explicit environment record of pure functions; an Option result models the
  nullptr / kDexNoIndex failure sentinels.
* kIsDebugBuild is false (release semantics): DCHECK/CHECK blocks disappear.
* Basic blocks and the graph are lists of instructions in program order.
-/

namespace Devirt

/-- Primitive::Type, restricted to the distinctions the pass makes
(kPrimNot = reference type vs everything else). -/
inductive Primitive where
  | kPrimNot
  | kPrimBoolean
  | kPrimInt
  | kPrimLong
  | kPrimVoid
deriving DecidableEq, Repr

/-- The per-instruction facts HasPrediction reads off the receiver operand:
whether it is an HNullCheck, its 0th input, and the type handle of its
ReferenceTypeInfo (a class id). -/
structure RInstr where
  isNullCheck : Bool
  input0 : Nat
  rtiTypeHandle : Nat
deriving DecidableEq, Repr

/-- The data of an HInvoke (virtual or interface) candidate call instruction. -/
structure InvokeData where
  /-- GetDexMethodIndex() -/
  dexMethodIndex : Nat
  /-- GetNumberOfArguments() -/
  numberOfArguments : Nat
  /-- GetType(), the result type -/
  retType : Primitive
  /-- GetDexPc() -/
  dexPc : Nat
  /-- input instruction ids; InputAt(0) is the receiver -/
  inputs : List Nat
  /-- GetEnvironment(), opaque id -/
  environment : Nat
  /-- GetReferenceTypeInfo(), opaque id -/
  rti : Nat
  /-- IsInvokeInterface() (else it is IsInvokeVirtual()) -/
  isInterface : Bool
deriving DecidableEq, Repr

/-- The external collaborators of the pass, as pure functions.  Methods and
classes (type handles) are natural-number ids; none models nullptr or
DexFile::kDexNoIndex. -/
structure Env where
  /-- dex cache GetResolvedMethod(method_index, pointer_size) -/
  resolvedMethodOf : Nat → Option Nat
  /-- FindVirtualOrInterfaceTarget(invoke, resolved_method): invoke id × method → method -/
  findVirtualOrInterfaceTarget : Nat → Nat → Option Nat
  /-- IsMethodOrDeclaringClassFinal(method) -/
  isMethodOrDeclaringClassFinal : Nat → Bool
  /-- method → GetDeclaringClass() -/
  declaringClassOf : Nat → Nat
  /-- receiver-side instruction facts, by instruction id -/
  instrOf : Nat → RInstr
  /-- graph_->GetArtMethod() -/
  graphArtMethod : Nat
  /-- FindClassIndexIn(class, caller_dex_file, dex_cache) -/
  findClassIndexIn : Nat → Option Nat
  /-- type->FindVirtualMethodForInterface(resolved, ptr_size): class × method → method -/
  findVirtualMethodForInterface : Nat → Nat → Option Nat
  /-- type->FindVirtualMethodForVirtual(resolved, ptr_size): class × method → method -/
  findVirtualMethodForVirtual : Nat → Nat → Option Nat
  /-- FindMethodIndexIn(actual_method, caller_dex_file, invoke->GetDexMethodIndex()) -/
  findMethodIndexIn : Nat → Nat → Option Nat
  /-- graph_->GetCurrentMethod(), an instruction id -/
  currentMethodId : Nat

/-- std::map::find on an association list keyed by instruction id
(first match wins; SafeMap keys are unique anyway). -/
def mapFind (k : Nat) : List (Nat × α) → Option α
  | [] => none
  | (k2, v) :: rest => if k2 = k then some v else mapFind k rest

@[simp] theorem mapFind_nil (k : Nat) : mapFind k ([] : List (Nat × α)) = none := rfl

@[simp] theorem mapFind_cons (k k2 : Nat) (v : α) (rest : List (Nat × α)) :
    mapFind k ((k2, v) :: rest) = if k2 = k then some v else mapFind k rest := rfl

/-- std::map::count of a key: 1 if present, 0 otherwise (SafeMap wraps std::map,
whose keys are unique, so count never exceeds 1). -/
def mapCount (m : List (Nat × α)) (k : Nat) : Nat :=
  match mapFind k m with
  | some _ => 1
  | none => 0

/-- The mutable state of the pass: the two prediction caches.
precise_prediction_ : SafeMap of instruction → TypeHandle;
imprecise_predictions_ : SafeMap of instruction → vector of TypeHandle. -/
structure PassState where
  precise_prediction_ : List (Nat × Nat)
  imprecise_predictions_ : List (Nat × List Nat)
deriving DecidableEq, Repr

/-- HDevirtualization::FindTypesFromProfile (lines 181-187): a stub that
always returns an empty vector. -/
def FindTypesFromProfile (_invoke : Nat) (_caller_method : Nat) : List Nat := []

/-- Lines 84-90 of HasPrediction: the receiver is InputAt(0); if it is a
null check, unwrap one more level; then read the ReferenceTypeInfo type
handle. -/
def receiverTypeHandle (env : Env) (invoke : InvokeData) : Nat :=
  let rid := invoke.inputs.headD 0
  let r := env.instrOf rid
  let rid2 := if r.isNullCheck then r.input0 else rid
  (env.instrOf rid2).rtiTypeHandle

/-- HDevirtualization::HasPrediction (lines 55-124): returns whether a
prediction exists for the call site and, when update is true, caches it.
Returns the boolean together with the updated pass state. -/
def HasPrediction (env : Env) (st : PassState) (invokeId : Nat)
    (invoke : InvokeData) (update : Bool) : Bool × PassState :=
  if (mapFind invokeId st.precise_prediction_).isSome then (true, st)
  else if (mapFind invokeId st.imprecise_predictions_).isSome then (true, st)
  else
    match env.resolvedMethodOf invoke.dexMethodIndex with
    | none => (false, st)
    | some resolved_method =>
      match env.findVirtualOrInterfaceTarget invokeId resolved_method with
      | some actual_method =>
        if update then
          let ty :=
            if env.isMethodOrDeclaringClassFinal actual_method then
              env.declaringClassOf actual_method
            else
              receiverTypeHandle env invoke
          (true, { st with precise_prediction_ := (invokeId, ty) :: st.precise_prediction_ })
        else (true, st)
      | none =>
        let possible_targets := FindTypesFromProfile invokeId env.graphArtMethod
        if possible_targets.length ≠ 0 then
          if update then
            (true, { st with
              imprecise_predictions_ := (invokeId, possible_targets) :: st.imprecise_predictions_ })
          else (true, st)
        else (false, st)

/-- The cost constants kCostOfLoadClass, kCostOfDevirtCheck and
kCostOfLoadReferrerClass are declared in devirtualization.h, which is not part
of the sources; the claims do not depend on their values, so the cost model is
parameterised over them. -/
structure CostParams where
  kCostOfLoadClass : Nat
  kCostOfDevirtCheck : Nat
  kCostOfLoadReferrerClass : Nat
deriving DecidableEq, Repr

/-- HDevirtualization::GetMaxCost (lines 126-128). -/
def GetMaxCost (cp : CostParams) : Nat :=
  cp.kCostOfLoadClass + cp.kCostOfDevirtCheck

/-- HDevirtualization::GetCost (lines 130-149).  referrer_class is
graph_->GetArtMethod()->GetDeclaringClass().  The none fall-through is
unreachable under the DCHECKed precondition that a prediction is cached. -/
def GetCost (cp : CostParams) (env : Env) (st : PassState) (invokeId : Nat) : Nat :=
  if (mapFind invokeId st.precise_prediction_).isSome then 0
  else
    let referrer_class := env.declaringClassOf env.graphArtMethod
    match mapFind invokeId st.imprecise_predictions_ with
    | some types =>
      (types.map fun t =>
        if t = referrer_class then cp.kCostOfLoadReferrerClass + cp.kCostOfDevirtCheck
        else GetMaxCost cp).sum
    | none => 0

/-- HDevirtualization::GetMispredictRate (lines 151-166).  Note the source
reads imprecise_predictions_.count(instr) — the number of entries of the
SafeMap with that key — not the size of the cached vector of types. -/
def GetMispredictRate (st : PassState) (invokeId : Nat) : Nat × Nat :=
  if (mapFind invokeId st.precise_prediction_).isSome then (0, 10)
  else
    let count := mapCount st.imprecise_predictions_ invokeId
    if count = 1 then (1, 10)
    else (count - 1, count)

/-- SpeculationRecoveryApproach, the recovery strategies the pass selects. -/
inductive SpeculationRecoveryApproach where
  | kRecoveryNotNeeded
  | kRecoveryDeopt
  | kRecoveryCodeVersioning
deriving DecidableEq, Repr

/-- HDevirtualization::GetRecoveryMethod (lines 384-397).  When neither cache
holds the call site the source dereferences an end iterator (unreachable under
the precondition that a prediction is cached); that case is mapped to the
else branch value kRecoveryCodeVersioning. -/
def GetRecoveryMethod (st : PassState) (invokeId : Nat) : SpeculationRecoveryApproach :=
  if (mapFind invokeId st.precise_prediction_).isSome then .kRecoveryNotNeeded
  else
    match mapFind invokeId st.imprecise_predictions_ with
    | some types =>
      if types.length = 1 then .kRecoveryDeopt else .kRecoveryCodeVersioning
    | none => .kRecoveryCodeVersioning

/-- HDevirtualization::GetPrimaryType (lines 189-198): the precise type if
cached, else the first imprecise candidate.  none models the unreachable
DCHECK-violating cases (no prediction, or an empty candidate vector). -/
def GetPrimaryType (st : PassState) (invokeId : Nat) : Option Nat :=
  match mapFind invokeId st.precise_prediction_ with
  | some t => some t
  | none => (mapFind invokeId st.imprecise_predictions_).bind fun ts => ts.head?

/-- The data of the HInvokeStaticOrDirect built by HandleSpeculation. -/
structure DirectInvoke where
  numberOfArguments : Nat
  retType : Primitive
  dexPc : Nat
  methodIndex : Nat
  args : List Nat
  environment : Nat
  rti : Option Nat
deriving DecidableEq, Repr

/-- The instruction kinds the pass reads or creates. -/
inductive IKind where
  | other
  | invokeVirt (d : InvokeData)
  | invokeDirect (d : DirectInvoke)
  /-- HLoadClass(current_method, class_index, dex_file, is_referrer, dex_pc, ...) -/
  | loadClass (classIndex : Nat) (isReferrer : Bool) (dexPc : Nat)
  /-- HInstanceFieldGet of shadow klass field; the Bool is SideEffects::None() -/
  | instanceFieldGet (objectId : Nat) (dexPc : Nat) (sideEffectsNone : Bool)
  /-- HDevirtGuard(prediction, class_getter, dex_pc) -/
  | devirtGuard (predictionId : Nat) (classGetterId : Nat) (dexPc : Nat)
deriving DecidableEq, Repr

/-- An IR instruction: an id (node identity) and its kind. -/
structure GInstr where
  id : Nat
  kind : IKind
deriving DecidableEq, Repr

/-- HBasicBlock::InsertInstructionBefore(newi, cursor): insert newi right
before the instruction whose id is cursorId. -/
def insertInstructionBefore (newi : GInstr) (cursorId : Nat) : List GInstr → List GInstr
  | [] => []
  | x :: xs =>
    if x.id = cursorId then newi :: x :: xs
    else x :: insertInstructionBefore newi cursorId xs

/-- HBasicBlock::InsertInstructionAfter(newi, anchor): insert newi right
after the instruction whose id is anchorId. -/
def insertInstructionAfter (newi : GInstr) (anchorId : Nat) : List GInstr → List GInstr
  | [] => []
  | x :: xs =>
    if x.id = anchorId then x :: newi :: xs
    else x :: insertInstructionAfter newi anchorId xs

/-- HBasicBlock::ReplaceAndRemoveInstructionWith(old, newi): the old node
(identified by its id) is replaced in place by newi. -/
def replaceAndRemoveInstructionWith (block : List GInstr) (oldId : Nat) (newi : GInstr) :
    List GInstr :=
  block.map fun x => if x.id = oldId then newi else x

/-- HDevirtualization::InsertSpeculationGuard (lines 219-276).  Arena
allocation of the three new nodes is modelled by three fresh ids freshId,
freshId+1, freshId+2 (class_getter, prediction, guard in allocation order).
Returns the guard on success, none when the predicted class has no index in
the caller dex file, together with the updated block. -/
def InsertSpeculationGuard (env : Env) (st : PassState) (block : List GInstr)
    (invokeId : Nat) (invoke : InvokeData) (cursorId : Nat) (freshId : Nat) :
    Option GInstr × List GInstr :=
  let object := invoke.inputs.headD 0
  match GetPrimaryType st invokeId with
  | none => (none, block)
  | some type =>
    match env.findClassIndexIn type with
    | none => (none, block)
    | some class_index =>
      let class_getter : GInstr :=
        ⟨freshId, .instanceFieldGet object invoke.dexPc true⟩
      let is_referrer := decide (type = env.declaringClassOf env.graphArtMethod)
      let prediction : GInstr :=
        ⟨freshId + 1, .loadClass class_index is_referrer invoke.dexPc⟩
      let guard : GInstr :=
        ⟨freshId + 2, .devirtGuard (freshId + 1) freshId invoke.dexPc⟩
      let b1 := insertInstructionBefore prediction cursorId block
      let b2 := insertInstructionAfter class_getter (freshId + 1) b1
      let b3 := insertInstructionAfter guard freshId b2
      (some guard, b3)

/-- kIsDebugBuild: the embedding follows release semantics, where the
DCHECK/CHECK blocks compile away. -/
def kIsDebugBuild : Bool := false

/-- HInvokeStaticOrDirect::NeedsCurrentMethodInput(kDexCacheViaMethod) in the
surrounding ART framework (outside this repository): the kDexCacheViaMethod
load kind does need the current method as an extra input. -/
def needsCurrentMethodInputDexCacheViaMethod : Bool := true

/-- HDevirtualization::HandleSpeculation (lines 278-382).  Returns the success
flag together with the updated graph (the block list holding the invoke).
The new HInvokeStaticOrDirect node gets fresh id newId. -/
def HandleSpeculation (env : Env) (st : PassState) (graph : List GInstr)
    (invokeId : Nat) (invoke : InvokeData) (guard_inserted : Bool) (newId : Nat) :
    Bool × List GInstr :=
  match GetPrimaryType st invokeId with
  | none => (false, graph)
  | some type =>
    if (!guard_inserted || kIsDebugBuild) && (env.findClassIndexIn type).isNone then
      (false, graph)
    else
      match env.resolvedMethodOf invoke.dexMethodIndex with
      | none => (false, graph)
      | some resolved_method =>
        let actual_method : Option Nat :=
          if !(env.isMethodOrDeclaringClassFinal resolved_method) then
            if invoke.isInterface then
              env.findVirtualMethodForInterface type resolved_method
            else
              env.findVirtualMethodForVirtual type resolved_method
          else some resolved_method
        match actual_method with
        | none => (false, graph)
        | some am =>
          match env.findMethodIndexIn am invoke.dexMethodIndex with
          | none => (false, graph)
          | some method_index =>
            let new_invoke : DirectInvoke :=
              { numberOfArguments := invoke.numberOfArguments
                retType := invoke.retType
                dexPc := invoke.dexPc
                methodIndex := method_index
                args := invoke.inputs ++
                  (if needsCurrentMethodInputDexCacheViaMethod then [env.currentMethodId] else [])
                environment := invoke.environment
                rti := if invoke.retType = Primitive.kPrimNot then some invoke.rti else none }
            (true, replaceAndRemoveInstructionWith graph invokeId ⟨newId, .invokeDirect new_invoke⟩)

/-- The cache invariant checked by the destructor (lines 35-44): imprecise
candidate vectors are never empty, and no call site is in both caches. -/
def CacheInvariant (st : PassState) : Prop :=
  (∀ i ts, mapFind i st.imprecise_predictions_ = some ts → ts ≠ []) ∧
  (∀ i, (mapFind i st.imprecise_predictions_).isSome →
    mapFind i st.precise_prediction_ = none)

/-- Running a sequence of HasPrediction calls (the only state-mutating
operation of the pass), threading the cache state. -/
def runCalls (env : Env) (st : PassState) : List (Nat × InvokeData × Bool) → PassState
  | [] => st
  | (i, inv, u) :: rest => runCalls env (HasPrediction env st i inv u).2 rest

/-- A sample external environment where every lookup succeeds. -/
def sampleEnv : Env where
  resolvedMethodOf := fun _ => some 1
  findVirtualOrInterfaceTarget := fun _ _ => some 2
  isMethodOrDeclaringClassFinal := fun _ => true
  declaringClassOf := fun m => m + 10
  instrOf := fun _ => ⟨false, 0, 3⟩
  graphArtMethod := 7
  findClassIndexIn := fun _ => some 4
  findVirtualMethodForInterface := fun _ _ => some 2
  findVirtualMethodForVirtual := fun _ _ => some 2
  findMethodIndexIn := fun _ _ => some 5
  currentMethodId := 99

/-- A sample environment where the predicted class has no index in the caller
dex file (FindClassIndexIn returns kDexNoIndex). -/
def sampleEnvNoClassIndex : Env :=
  { sampleEnv with findClassIndexIn := fun _ => none }

/-- A sample environment where the dex cache has no resolved method. -/
def sampleEnvNoResolve : Env :=
  { sampleEnv with resolvedMethodOf := fun _ => none }

/-- A sample environment where no statically determinable dispatch target
exists (FindVirtualOrInterfaceTarget returns nullptr). -/
def sampleEnvNoTarget : Env :=
  { sampleEnv with findVirtualOrInterfaceTarget := fun _ _ => none }

/-- A sample candidate invoke-virtual call. -/
def sampleInvoke : InvokeData where
  dexMethodIndex := 0
  numberOfArguments := 2
  retType := .kPrimInt
  dexPc := 20
  inputs := [3, 4]
  environment := 30
  rti := 40
  isInterface := false

/-- Sample cost constants. -/
def sampleCosts : CostParams := ⟨3, 4, 1⟩

section Theorems

/-- HasPrediction never adds to the imprecise map: FindTypesFromProfile is a
stub returning the empty vector, so the only branch that would is dead. -/
theorem hasPrediction_imprecise_unchanged (env : Env) (st : PassState) (i : Nat)
    (inv : InvokeData) (u : Bool) :
    (HasPrediction env st i inv u).2.imprecise_predictions_ = st.imprecise_predictions_ := by
  unfold HasPrediction
  split
  · rfl
  split
  · rfl
  cases env.resolvedMethodOf inv.dexMethodIndex with
  | none => rfl
  | some rm =>
    simp only []
    cases env.findVirtualOrInterfaceTarget i rm with
    | some am => cases u <;> rfl
    | none => simp [FindTypesFromProfile]

/-- Adding a precise entry for a key absent from the imprecise map preserves
the cache invariant. -/
theorem cacheInvariant_precise_insert (st : PassState) (i t : Nat)
    (h : CacheInvariant st) (hi : mapFind i st.imprecise_predictions_ = none) :
    CacheInvariant { st with precise_prediction_ := (i, t) :: st.precise_prediction_ } := by
  obtain ⟨hne, hexcl⟩ := h
  refine ⟨hne, ?_⟩
  intro j hj
  simp only [mapFind_cons]
  by_cases hij : i = j
  · subst hij
    rw [hi] at hj
    simp at hj
  · rw [if_neg hij]
    exact hexcl j hj

/-- C1 (code bug): GetMispredictRate reads imprecise_predictions_.count(instr),
the number of SafeMap entries with that key — always 1 for a cached imprecise
prediction — instead of the size of the cached candidate vector.  For a call
site with three candidate types it therefore returns (1, 10), not the (2, 3)
the claim states; the (count - 1, count) branch is unreachable. -/
theorem getMispredictRate_three_candidates_failing :
    GetMispredictRate ⟨[], [(0, [4, 5, 6])]⟩ 0 = (1, 10) ∧
    GetMispredictRate ⟨[], [(0, [4, 5, 6])]⟩ 0 ≠ (2, 3) := by
  constructor <;> decide

/-- C5: GetCost is 0 for a precise prediction; for an imprecise prediction it
is the sum over the candidate types of kCostOfLoadReferrerClass +
kCostOfDevirtCheck when the candidate is the declaring class of the method
being compiled and GetMaxCost() otherwise; it is non-negative and
non-decreasing when the candidate list is extended. -/
theorem getCost_spec (cp : CostParams) (env : Env) (st : PassState) (i : Nat) :
    (0 ≤ GetCost cp env st i) ∧
    ((mapFind i st.precise_prediction_).isSome = true → GetCost cp env st i = 0) ∧
    (∀ ts, mapFind i st.precise_prediction_ = none →
      mapFind i st.imprecise_predictions_ = some ts →
      GetCost cp env st i =
        (ts.map fun t =>
          if t = env.declaringClassOf env.graphArtMethod then
            cp.kCostOfLoadReferrerClass + cp.kCostOfDevirtCheck
          else GetMaxCost cp).sum) ∧
    (∀ ts ext (st2 : PassState), mapFind i st.precise_prediction_ = none →
      mapFind i st.imprecise_predictions_ = some ts →
      mapFind i st2.precise_prediction_ = none →
      mapFind i st2.imprecise_predictions_ = some (ts ++ ext) →
      GetCost cp env st i ≤ GetCost cp env st2 i) := by
  have hformula : ∀ (st3 : PassState) ts, mapFind i st3.precise_prediction_ = none →
      mapFind i st3.imprecise_predictions_ = some ts →
      GetCost cp env st3 i =
        (ts.map fun t =>
          if t = env.declaringClassOf env.graphArtMethod then
            cp.kCostOfLoadReferrerClass + cp.kCostOfDevirtCheck
          else GetMaxCost cp).sum := by
    intro st3 ts hp himp
    simp [GetCost, hp, himp]
  refine ⟨Nat.zero_le _, ?_, hformula st, ?_⟩
  · intro h
    simp [GetCost, h]
  · intro ts ext st2 hp himp hp2 himp2
    rw [hformula st ts hp himp, hformula st2 (ts ++ ext) hp2 himp2,
        List.map_append, List.sum_append]
    exact Nat.le_add_right _ _

/-- Witness for getCost_spec at concrete inputs (referrer class of sampleEnv
is declaringClassOf 7 = 17). -/
theorem getCost_spec_witness :
    GetCost sampleCosts sampleEnv ⟨[(0, 5)], []⟩ 0 = 0 ∧
    GetCost sampleCosts sampleEnv ⟨[], [(1, [17, 6])]⟩ 1 =
      ([17, 6].map fun t =>
        if t = sampleEnv.declaringClassOf sampleEnv.graphArtMethod then
          sampleCosts.kCostOfLoadReferrerClass + sampleCosts.kCostOfDevirtCheck
        else GetMaxCost sampleCosts).sum ∧
    GetCost sampleCosts sampleEnv ⟨[], [(1, [17])]⟩ 1 ≤
      GetCost sampleCosts sampleEnv ⟨[], [(1, [17, 6])]⟩ 1 :=
  ⟨(getCost_spec sampleCosts sampleEnv ⟨[(0, 5)], []⟩ 0).2.1 (by decide),
   (getCost_spec sampleCosts sampleEnv ⟨[], [(1, [17, 6])]⟩ 1).2.2.1 [17, 6] (by decide) (by decide),
   (getCost_spec sampleCosts sampleEnv ⟨[], [(1, [17])]⟩ 1).2.2.2 [17] [6] ⟨[], [(1, [17, 6])]⟩
     (by decide) (by decide) (by decide) (by decide)⟩

/-- C6: GetRecoveryMethod is NotNeeded for a precise prediction, Deopt for an
imprecise prediction with one candidate, CodeVersioning for more than one,
and is a pure function of the cached prediction. -/
theorem getRecoveryMethod_spec (st : PassState) (i : Nat) :
    (∀ t, mapFind i st.precise_prediction_ = some t →
      GetRecoveryMethod st i = .kRecoveryNotNeeded) ∧
    (∀ ts, mapFind i st.precise_prediction_ = none →
      mapFind i st.imprecise_predictions_ = some ts →
      (ts.length = 1 → GetRecoveryMethod st i = .kRecoveryDeopt) ∧
      (1 < ts.length → GetRecoveryMethod st i = .kRecoveryCodeVersioning)) ∧
    (∀ st2 : PassState,
      mapFind i st2.precise_prediction_ = mapFind i st.precise_prediction_ →
      mapFind i st2.imprecise_predictions_ = mapFind i st.imprecise_predictions_ →
      GetRecoveryMethod st2 i = GetRecoveryMethod st i) := by
  refine ⟨?_, ?_, ?_⟩
  · intro t ht
    simp [GetRecoveryMethod, ht]
  · intro ts hp hi
    constructor
    · intro h1
      simp [GetRecoveryMethod, hp, hi, h1]
    · intro h1
      have hne : ts.length ≠ 1 := by omega
      simp [GetRecoveryMethod, hp, hi, hne]
  · intro st2 h1 h2
    simp only [GetRecoveryMethod, h1, h2]

/-- Witness for getRecoveryMethod_spec on the three prediction shapes. -/
theorem getRecoveryMethod_spec_witness :
    GetRecoveryMethod ⟨[(0, 9)], [(1, [4]), (2, [4, 5])]⟩ 0 = .kRecoveryNotNeeded ∧
    GetRecoveryMethod ⟨[(0, 9)], [(1, [4]), (2, [4, 5])]⟩ 1 = .kRecoveryDeopt ∧
    GetRecoveryMethod ⟨[(0, 9)], [(1, [4]), (2, [4, 5])]⟩ 2 = .kRecoveryCodeVersioning :=
  ⟨(getRecoveryMethod_spec ⟨[(0, 9)], [(1, [4]), (2, [4, 5])]⟩ 0).1 9 (by decide),
   ((getRecoveryMethod_spec ⟨[(0, 9)], [(1, [4]), (2, [4, 5])]⟩ 1).2.1 [4]
     (by decide) (by decide)).1 (by decide),
   ((getRecoveryMethod_spec ⟨[(0, 9)], [(1, [4]), (2, [4, 5])]⟩ 2).2.1 [4, 5]
     (by decide) (by decide)).2 (by decide)⟩

/-- C7: HasPrediction with update=false never mutates the cache, returns true
immediately when a prediction (precise or imprecise) is cached, and a repeated
call returns the same boolean. -/
theorem hasPrediction_noUpdate_pure (env : Env) (st : PassState) (i : Nat)
    (inv : InvokeData) :
    (HasPrediction env st i inv false).2 = st ∧
    ((mapFind i st.precise_prediction_).isSome = true ∨
      (mapFind i st.imprecise_predictions_).isSome = true →
      (HasPrediction env st i inv false).1 = true) ∧
    (HasPrediction env (HasPrediction env st i inv false).2 i inv false).1 =
      (HasPrediction env st i inv false).1 := by
  have h2 : (HasPrediction env st i inv false).2 = st := by
    unfold HasPrediction
    split
    · rfl
    split
    · rfl
    cases env.resolvedMethodOf inv.dexMethodIndex with
    | none => rfl
    | some rm =>
      simp only []
      cases env.findVirtualOrInterfaceTarget i rm with
      | some am => rfl
      | none => simp [FindTypesFromProfile]
  refine ⟨h2, ?_, by rw [h2]⟩
  intro h
  rcases h with h | h
  · simp [HasPrediction, h]
  · by_cases hp : (mapFind i st.precise_prediction_).isSome = true <;>
      simp [HasPrediction, hp, h]

/-- Witness for hasPrediction_noUpdate_pure with a cached precise prediction. -/
theorem hasPrediction_noUpdate_pure_witness :
    (HasPrediction sampleEnv ⟨[(0, 5)], []⟩ 0 sampleInvoke false).2 = ⟨[(0, 5)], []⟩ ∧
    (HasPrediction sampleEnv ⟨[(0, 5)], []⟩ 0 sampleInvoke false).1 = true :=
  ⟨(hasPrediction_noUpdate_pure sampleEnv ⟨[(0, 5)], []⟩ 0 sampleInvoke).1,
   (hasPrediction_noUpdate_pure sampleEnv ⟨[(0, 5)], []⟩ 0 sampleInvoke).2.1
     (Or.inl (by decide))⟩

/-- C2: the cache invariant — no call site in both maps, every cached
imprecise candidate list non-empty — is preserved by HasPrediction for either
update flag (the only state-mutating operation of the pass; all other
operations read the caches without modifying them). -/
theorem hasPrediction_preserves_cacheInvariant (env : Env) (st : PassState)
    (i : Nat) (inv : InvokeData) (u : Bool) (h : CacheInvariant st) :
    CacheInvariant (HasPrediction env st i inv u).2 := by
  by_cases h1 : (mapFind i st.precise_prediction_).isSome = true
  · simpa [HasPrediction, h1] using h
  by_cases hi2 : (mapFind i st.imprecise_predictions_).isSome = true
  · simpa [HasPrediction, h1, hi2] using h
  cases hr : env.resolvedMethodOf inv.dexMethodIndex with
  | none => simpa [HasPrediction, h1, hi2, hr] using h
  | some rm =>
    cases ha : env.findVirtualOrInterfaceTarget i rm with
    | some am =>
      cases u with
      | false => simpa [HasPrediction, h1, hi2, hr, ha] using h
      | true =>
        have hnone : mapFind i st.imprecise_predictions_ = none :=
          Option.not_isSome_iff_eq_none.mp (by simpa using hi2)
        have := cacheInvariant_precise_insert st i
          (if env.isMethodOrDeclaringClassFinal am then env.declaringClassOf am
           else receiverTypeHandle env inv) h hnone
        simpa [HasPrediction, h1, hi2, hr, ha] using this
    | none =>
      simpa [HasPrediction, h1, hi2, hr, ha, FindTypesFromProfile] using h

/-- Witness for hasPrediction_preserves_cacheInvariant from the empty cache. -/
theorem hasPrediction_preserves_cacheInvariant_witness :
    CacheInvariant ⟨[], []⟩ ∧
    CacheInvariant (HasPrediction sampleEnv ⟨[], []⟩ 0 sampleInvoke true).2 := by
  have h0 : CacheInvariant (⟨[], []⟩ : PassState) := by
    constructor
    · intro i ts hts
      simp at hts
    · intro i hts
      simp at hts
  exact ⟨h0, hasPrediction_preserves_cacheInvariant sampleEnv ⟨[], []⟩ 0 sampleInvoke true h0⟩

/-- C10: FindTypesFromProfile is a stub returning the empty list, so the
imprecise map stays empty under any sequence of HasPrediction calls; an
uncached call site gets a (precise) prediction exactly when a statically
determinable dispatch target exists, and HasPrediction returns false when it
does not. -/
theorem findTypesFromProfile_stub_consequences (env : Env) :
    (∀ i m, FindTypesFromProfile i m = []) ∧
    (∀ st calls, st.imprecise_predictions_ = [] →
      (runCalls env st calls).imprecise_predictions_ = []) ∧
    (∀ (st : PassState) i inv u (rm am : Nat),
      mapFind i st.precise_prediction_ = none →
      st.imprecise_predictions_ = [] →
      env.resolvedMethodOf inv.dexMethodIndex = some rm →
      env.findVirtualOrInterfaceTarget i rm = some am →
      (HasPrediction env st i inv u).1 = true) ∧
    (∀ (st : PassState) i inv u,
      mapFind i st.precise_prediction_ = none →
      st.imprecise_predictions_ = [] →
      (∀ rm, env.resolvedMethodOf inv.dexMethodIndex = some rm →
        env.findVirtualOrInterfaceTarget i rm = none) →
      (HasPrediction env st i inv u).1 = false) := by
  refine ⟨fun _ _ => rfl, ?_, ?_, ?_⟩
  · intro st calls
    induction calls generalizing st with
    | nil => intro h; exact h
    | cons c rest ih =>
      intro h
      obtain ⟨i, inv, u⟩ := c
      exact ih _ ((hasPrediction_imprecise_unchanged env st i inv u).trans h)
  · intro st i inv u rm am hp himp hrm ham
    cases u <;> simp [HasPrediction, hp, himp, hrm, ham]
  · intro st i inv u hp himp hno
    cases hr : env.resolvedMethodOf inv.dexMethodIndex with
    | none => simp [HasPrediction, hp, himp, hr]
    | some rm =>
      simp [HasPrediction, hp, himp, hr, hno rm hr, FindTypesFromProfile]

/-- Witness for findTypesFromProfile_stub_consequences: a run of updating
calls leaves the imprecise map empty, a resolvable target yields a prediction,
and an unresolvable one yields none. -/
theorem findTypesFromProfile_stub_consequences_witness :
    (runCalls sampleEnv ⟨[], []⟩
      [(0, sampleInvoke, true), (1, sampleInvoke, true)]).imprecise_predictions_ = [] ∧
    (HasPrediction sampleEnv ⟨[], []⟩ 0 sampleInvoke true).1 = true ∧
    (HasPrediction sampleEnvNoTarget ⟨[], []⟩ 0 sampleInvoke true).1 = false :=
  ⟨(findTypesFromProfile_stub_consequences sampleEnv).2.1 ⟨[], []⟩ _ rfl,
   (findTypesFromProfile_stub_consequences sampleEnv).2.2.1 ⟨[], []⟩ 0 sampleInvoke true 1 2
     (by decide) rfl (by decide) (by decide),
   (findTypesFromProfile_stub_consequences sampleEnvNoTarget).2.2.2 ⟨[], []⟩ 0 sampleInvoke true
     (by decide) rfl (fun rm _ => rfl)⟩

/-- insertInstructionBefore skips a block segment holding no instruction with
the cursor id. -/
theorem insertInstructionBefore_append_of_ne (newi : GInstr) (cid : Nat)
    (pre rest : List GInstr) (h : ∀ x ∈ pre, x.id ≠ cid) :
    insertInstructionBefore newi cid (pre ++ rest) =
      pre ++ insertInstructionBefore newi cid rest := by
  induction pre with
  | nil => simp
  | cons a as ih =>
    have ha : a.id ≠ cid := h a (List.mem_cons_self a as)
    rw [List.cons_append, List.cons_append]
    simp only [insertInstructionBefore]
    rw [if_neg ha, ih (fun x hx => h x (List.mem_cons_of_mem a hx))]

/-- insertInstructionBefore at the head when it carries the cursor id. -/
theorem insertInstructionBefore_cons_eq (newi : GInstr) (cid : Nat) (x : GInstr)
    (xs : List GInstr) (h : x.id = cid) :
    insertInstructionBefore newi cid (x :: xs) = newi :: x :: xs := by
  simp [insertInstructionBefore, h]

/-- insertInstructionAfter skips a block segment holding no instruction with
the anchor id. -/
theorem insertInstructionAfter_append_of_ne (newi : GInstr) (aid : Nat)
    (pre rest : List GInstr) (h : ∀ x ∈ pre, x.id ≠ aid) :
    insertInstructionAfter newi aid (pre ++ rest) =
      pre ++ insertInstructionAfter newi aid rest := by
  induction pre with
  | nil => simp
  | cons a as ih =>
    have ha : a.id ≠ aid := h a (List.mem_cons_self a as)
    rw [List.cons_append, List.cons_append]
    simp only [insertInstructionAfter]
    rw [if_neg ha, ih (fun x hx => h x (List.mem_cons_of_mem a hx))]

/-- insertInstructionAfter at the head when it carries the anchor id. -/
theorem insertInstructionAfter_cons_eq (newi : GInstr) (aid : Nat) (x : GInstr)
    (xs : List GInstr) (h : x.id = aid) :
    insertInstructionAfter newi aid (x :: xs) = x :: newi :: xs := by
  simp [insertInstructionAfter, h]

/-- insertInstructionAfter skips a head instruction with a different id. -/
theorem insertInstructionAfter_cons_ne (newi : GInstr) (aid : Nat) (x : GInstr)
    (xs : List GInstr) (h : x.id ≠ aid) :
    insertInstructionAfter newi aid (x :: xs) = x :: insertInstructionAfter newi aid xs := by
  simp [insertInstructionAfter, h]

/-- insertInstructionAfter at a head instruction written as a literal with the
anchor id. -/
theorem insertInstructionAfter_cons_self (newi : GInstr) (i : Nat) (k : IKind)
    (xs : List GInstr) :
    insertInstructionAfter newi i ((⟨i, k⟩ : GInstr) :: xs) = (⟨i, k⟩ : GInstr) :: newi :: xs := by
  simp [insertInstructionAfter]

/-- Mapping a function that fixes every element of a list is the identity. -/
theorem map_id_of_fixed (f : GInstr → GInstr) (l : List GInstr)
    (h : ∀ x ∈ l, f x = x) : l.map f = l := by
  induction l with
  | nil => rfl
  | cons a as ih =>
    rw [List.map_cons, h a (List.mem_cons_self a as),
        ih (fun x hx => h x (List.mem_cons_of_mem a hx))]

/-- ReplaceAndRemoveInstructionWith swaps exactly the node with the old id
when no other node shares it. -/
theorem replaceAndRemove_append (pre post : List GInstr) (oldId : Nat)
    (old newi : GInstr) (hold : old.id = oldId)
    (h : ∀ x ∈ pre ++ post, x.id ≠ oldId) :
    replaceAndRemoveInstructionWith (pre ++ old :: post) oldId newi =
      pre ++ newi :: post := by
  unfold replaceAndRemoveInstructionWith
  rw [List.map_append, List.map_cons, if_pos hold,
      map_id_of_fixed _ pre (fun x hx => if_neg (h x (List.mem_append_left _ hx))),
      map_id_of_fixed _ post (fun x hx => if_neg (h x (List.mem_append_right _ hx)))]

/-- C8: when the primary predicted type has no class index in the caller dex
file, InsertSpeculationGuard returns the none failure sentinel and the block
is returned exactly as it was, with no instruction inserted. -/
theorem insertSpeculationGuard_noClassIndex (env : Env) (st : PassState)
    (block : List GInstr) (invokeId : Nat) (invoke : InvokeData)
    (cursorId freshId ty : Nat)
    (hty : GetPrimaryType st invokeId = some ty)
    (hci : env.findClassIndexIn ty = none) :
    InsertSpeculationGuard env st block invokeId invoke cursorId freshId = (none, block) := by
  simp [InsertSpeculationGuard, hty, hci]

/-- Witness for insertSpeculationGuard_noClassIndex. -/
theorem insertSpeculationGuard_noClassIndex_witness :
    InsertSpeculationGuard sampleEnvNoClassIndex ⟨[(0, 5)], []⟩ [⟨1, .other⟩] 0
      sampleInvoke 1 10 = (none, [⟨1, .other⟩]) :=
  insertSpeculationGuard_noClassIndex sampleEnvNoClassIndex ⟨[(0, 5)], []⟩ [⟨1, .other⟩] 0
    sampleInvoke 1 10 5 (by decide) (by decide)

/-- C4 (amended): on success, exactly three new instructions appear in
sequence immediately before the cursor — the HLoadClass reference to the
predicted type, then the side-effect-free load of the receiver's runtime
type, then the HDevirtGuard comparing the two, in that order — and the guard
is returned. -/
theorem insertSpeculationGuard_success_inserts_three (env : Env) (st : PassState)
    (invokeId : Nat) (invoke : InvokeData) (freshId ty ci : Nat)
    (pre post : List GInstr) (cursor : GInstr)
    (hty : GetPrimaryType st invokeId = some ty)
    (hci : env.findClassIndexIn ty = some ci)
    (hpre1 : ∀ x ∈ pre, x.id ≠ cursor.id)
    (hpre2 : ∀ x ∈ pre, x.id ≠ freshId)
    (hpre3 : ∀ x ∈ pre, x.id ≠ freshId + 1) :
    InsertSpeculationGuard env st (pre ++ cursor :: post) invokeId invoke cursor.id freshId =
      (some ⟨freshId + 2, .devirtGuard (freshId + 1) freshId invoke.dexPc⟩,
        pre ++
          (⟨freshId + 1, .loadClass ci
            (decide (ty = env.declaringClassOf env.graphArtMethod)) invoke.dexPc⟩ : GInstr) ::
          (⟨freshId, .instanceFieldGet (invoke.inputs.headD 0) invoke.dexPc true⟩ : GInstr) ::
          (⟨freshId + 2, .devirtGuard (freshId + 1) freshId invoke.dexPc⟩ : GInstr) ::
          cursor :: post) := by
  simp only [InsertSpeculationGuard, hty, hci]
  rw [insertInstructionBefore_append_of_ne _ _ _ _ hpre1,
      insertInstructionBefore_cons_eq _ _ _ _ rfl,
      insertInstructionAfter_append_of_ne _ _ _ _ hpre3,
      insertInstructionAfter_cons_self,
      insertInstructionAfter_append_of_ne _ _ _ _ hpre2,
      insertInstructionAfter_cons_ne _ _ _ _ (by simp),
      insertInstructionAfter_cons_self]

/-- Counterexample to C4 as stated: the three instructions are inserted with
the reference to the predicted type FIRST and the runtime-type load SECOND
(the claim states the opposite order). -/
theorem insertSpeculationGuard_order_counterexample :
    (InsertSpeculationGuard sampleEnv ⟨[(0, 5)], []⟩ [⟨1, .other⟩] 0 sampleInvoke 1 10).2 =
      [⟨11, .loadClass 4 false 20⟩, ⟨10, .instanceFieldGet 3 20 true⟩,
       ⟨12, .devirtGuard 11 10 20⟩, ⟨1, .other⟩] ∧
    (InsertSpeculationGuard sampleEnv ⟨[(0, 5)], []⟩ [⟨1, .other⟩] 0 sampleInvoke 1 10).2 ≠
      [⟨10, .instanceFieldGet 3 20 true⟩, ⟨11, .loadClass 4 false 20⟩,
       ⟨12, .devirtGuard 11 10 20⟩, ⟨1, .other⟩] := by
  constructor <;> decide

/-- Witness for insertSpeculationGuard_success_inserts_three. -/
theorem insertSpeculationGuard_success_inserts_three_witness :
    InsertSpeculationGuard sampleEnv ⟨[(0, 5)], []⟩ [⟨1, .other⟩] 0 sampleInvoke 1 10 =
      (some ⟨12, .devirtGuard 11 10 sampleInvoke.dexPc⟩,
        [⟨11, .loadClass 4
          (decide (5 = sampleEnv.declaringClassOf sampleEnv.graphArtMethod)) sampleInvoke.dexPc⟩,
         ⟨10, .instanceFieldGet (sampleInvoke.inputs.headD 0) sampleInvoke.dexPc true⟩,
         ⟨12, .devirtGuard 11 10 sampleInvoke.dexPc⟩, ⟨1, .other⟩]) :=
  insertSpeculationGuard_success_inserts_three sampleEnv ⟨[(0, 5)], []⟩ 0 sampleInvoke 10 5 4
    [] [] ⟨1, .other⟩ (by decide) (by decide) (by simp) (by simp) (by simp)

/-- C3: when HandleSpeculation succeeds, the original invoke node is replaced
in place by a new direct invoke with the same argument count, the same result
type, the environment copied from the original, and the original reference
type info when the result type is a reference; the original invoke is no
longer in the graph. -/
theorem handleSpeculation_success_rewrites (env : Env) (st : PassState)
    (pre post : List GInstr) (invokeId : Nat) (d : InvokeData)
    (gi : Bool) (newId ty rm am mi : Nat)
    (hty : GetPrimaryType st invokeId = some ty)
    (hclass : ((!gi || kIsDebugBuild) && (env.findClassIndexIn ty).isNone) = false)
    (hrm : env.resolvedMethodOf d.dexMethodIndex = some rm)
    (ham : (if !(env.isMethodOrDeclaringClassFinal rm) then
              (if d.isInterface then env.findVirtualMethodForInterface ty rm
               else env.findVirtualMethodForVirtual ty rm)
            else some rm) = some am)
    (hmi : env.findMethodIndexIn am d.dexMethodIndex = some mi)
    (hid : ∀ x ∈ pre ++ post, x.id ≠ invokeId) :
    HandleSpeculation env st (pre ++ (⟨invokeId, .invokeVirt d⟩ : GInstr) :: post)
        invokeId d gi newId =
      (true, pre ++ (⟨newId, .invokeDirect
        { numberOfArguments := d.numberOfArguments
          retType := d.retType
          dexPc := d.dexPc
          methodIndex := mi
          args := d.inputs ++ [env.currentMethodId]
          environment := d.environment
          rti := if d.retType = Primitive.kPrimNot then some d.rti else none }⟩ : GInstr)
        :: post) ∧
    (⟨invokeId, .invokeVirt d⟩ : GInstr) ∉
      (HandleSpeculation env st (pre ++ (⟨invokeId, .invokeVirt d⟩ : GInstr) :: post)
        invokeId d gi newId).2 := by
  have heq : HandleSpeculation env st (pre ++ (⟨invokeId, .invokeVirt d⟩ : GInstr) :: post)
      invokeId d gi newId =
      (true, pre ++ (⟨newId, .invokeDirect
        { numberOfArguments := d.numberOfArguments
          retType := d.retType
          dexPc := d.dexPc
          methodIndex := mi
          args := d.inputs ++ [env.currentMethodId]
          environment := d.environment
          rti := if d.retType = Primitive.kPrimNot then some d.rti else none }⟩ : GInstr)
        :: post) := by
    simp only [HandleSpeculation, hty, hclass, hrm, ham, hmi, Bool.false_eq_true, if_false,
      needsCurrentMethodInputDexCacheViaMethod, if_true]
    rw [replaceAndRemove_append pre post invokeId _ _ rfl hid]
  refine ⟨heq, ?_⟩
  rw [heq]
  intro hmem
  simp only [List.mem_append, List.mem_cons] at hmem
  rcases hmem with hmem | hmem | hmem
  · exact hid _ (List.mem_append_left _ hmem) rfl
  · simp at hmem
  · exact hid _ (List.mem_append_right _ hmem) rfl

/-- Witness for handleSpeculation_success_rewrites. -/
theorem handleSpeculation_success_rewrites_witness :
    HandleSpeculation sampleEnv ⟨[(0, 5)], []⟩ [⟨0, .invokeVirt sampleInvoke⟩] 0
        sampleInvoke false 50 =
      (true, [⟨50, .invokeDirect
        { numberOfArguments := sampleInvoke.numberOfArguments
          retType := sampleInvoke.retType
          dexPc := sampleInvoke.dexPc
          methodIndex := 5
          args := sampleInvoke.inputs ++ [sampleEnv.currentMethodId]
          environment := sampleInvoke.environment
          rti := if sampleInvoke.retType = Primitive.kPrimNot then some sampleInvoke.rti
                 else none }⟩]) ∧
    (⟨0, .invokeVirt sampleInvoke⟩ : GInstr) ∉
      (HandleSpeculation sampleEnv ⟨[(0, 5)], []⟩ [⟨0, .invokeVirt sampleInvoke⟩] 0
        sampleInvoke false 50).2 :=
  handleSpeculation_success_rewrites sampleEnv ⟨[(0, 5)], []⟩ [] [] 0 sampleInvoke false 50
    5 1 1 5 (by decide) (by decide) (by decide) (by decide) (by decide) (by simp)

/-- C9: whenever HandleSpeculation returns false, the graph is returned
exactly as it was — no instruction is replaced or created. -/
theorem handleSpeculation_failure_no_mutation (env : Env) (st : PassState)
    (graph : List GInstr) (invokeId : Nat) (invoke : InvokeData) (gi : Bool) (newId : Nat)
    (h : (HandleSpeculation env st graph invokeId invoke gi newId).1 = false) :
    (HandleSpeculation env st graph invokeId invoke gi newId).2 = graph := by
  cases hty : GetPrimaryType st invokeId with
  | none => simp [HandleSpeculation, hty]
  | some ty =>
    cases hc : ((!gi || kIsDebugBuild) && (env.findClassIndexIn ty).isNone) with
    | true => simp [HandleSpeculation, hty, hc]
    | false =>
      cases hrm : env.resolvedMethodOf invoke.dexMethodIndex with
      | none => simp [HandleSpeculation, hty, hc, hrm]
      | some rm =>
        cases hf : env.isMethodOrDeclaringClassFinal rm with
        | true =>
          cases hmi : env.findMethodIndexIn rm invoke.dexMethodIndex with
          | none => simp [HandleSpeculation, hty, hc, hrm, hf, hmi]
          | some mi =>
            exfalso
            simp [HandleSpeculation, hty, hc, hrm, hf, hmi] at h
        | false =>
          cases hii : invoke.isInterface with
          | true =>
            cases ham : env.findVirtualMethodForInterface ty rm with
            | none => simp [HandleSpeculation, hty, hc, hrm, hf, hii, ham]
            | some am =>
              cases hmi : env.findMethodIndexIn am invoke.dexMethodIndex with
              | none => simp [HandleSpeculation, hty, hc, hrm, hf, hii, ham, hmi]
              | some mi =>
                exfalso
                simp [HandleSpeculation, hty, hc, hrm, hf, hii, ham, hmi] at h
          | false =>
            cases ham : env.findVirtualMethodForVirtual ty rm with
            | none => simp [HandleSpeculation, hty, hc, hrm, hf, hii, ham]
            | some am =>
              cases hmi : env.findMethodIndexIn am invoke.dexMethodIndex with
              | none => simp [HandleSpeculation, hty, hc, hrm, hf, hii, ham, hmi]
              | some mi =>
                exfalso
                simp [HandleSpeculation, hty, hc, hrm, hf, hii, ham, hmi] at h

/-- Witness for handleSpeculation_failure_no_mutation: an unresolvable target
method makes the rewrite fail and the graph comes back unchanged. -/
theorem handleSpeculation_failure_no_mutation_witness :
    (HandleSpeculation sampleEnvNoResolve ⟨[(0, 5)], []⟩ [⟨0, .invokeVirt sampleInvoke⟩] 0
      sampleInvoke false 50).2 = [⟨0, .invokeVirt sampleInvoke⟩] :=
  handleSpeculation_failure_no_mutation sampleEnvNoResolve ⟨[(0, 5)], []⟩
    [⟨0, .invokeVirt sampleInvoke⟩] 0 sampleInvoke false 50 (by decide)

end Theorems

end Devirt
